import Mathlib

/-!
Shallow embedding of the Flappy Bird game core (src/src/main.rs).

The player, obstacle and session state are translated field by field from
the Rust source.  `f32` velocity and frame-time values are modelled as
rationals; the Rust cast `velocity as i32` (truncation toward zero) is
modelled by `ratTrunc`.  The background obstacle-generator thread and its
mpsc channel are modelled by an explicit `genNextX` cursor (the next world
x the producer will send) together with a per-tick list of drained
messages; the `Arc<Mutex<HighScore>>` is modelled as an integer field of
the state, mutated exactly where the source locks and writes it.
Randomness (`rng.range`) is modelled by an oracle `rng : Nat → Int × Int`
supplying the (gap_y, size) pair for each spawned obstacle.
-/

namespace Flappy

def SCREEN_WIDTH : Int := 80

def SCREEN_HEIGHT : Int := 50

def FRAME_DURATION : Rat := 75

inductive PlayerError where
  | AlreadyDead
  | FallingTooFast
deriving DecidableEq

/-- Truncation of a rational toward zero, the semantics of the Rust cast
`f as i32` for in-range values. -/
def ratTrunc (q : Rat) : Int := if 0 ≤ q then ⌊q⌋ else -⌊-q⌋

structure Player where
  x : Int
  y : Int
  velocity : Rat
  alive : Bool
deriving DecidableEq

def Player.new (x y : Int) : Player :=
  { x := x, y := y, velocity := 0, alive := true }

/-- `Player::try_move` (main.rs lines 41-60): mutation result paired with
the `Option<()>` return value (`none` = cannot move / movement blocked). -/
def Player.try_move (p : Player) : Player × Option Unit :=
  if !p.alive then (p, none)
  else
    let v := if p.velocity < 2 then p.velocity + 0.2 else p.velocity
    let x := p.x + 1
    let y := p.y + ratTrunc v
    if y < 0 then ({ x := x, y := 0, velocity := v, alive := false }, none)
    else ({ x := x, y := y, velocity := v, alive := p.alive }, some ())

/-- `Player::flap` (main.rs lines 63-73): mutation result paired with the
error, if any (`none` = Ok). -/
def Player.flap (p : Player) : Player × Option PlayerError :=
  if !p.alive then (p, some PlayerError.AlreadyDead)
  else if p.velocity > 5 then (p, some PlayerError.FallingTooFast)
  else ({ p with velocity := -2 }, none)

/-- `Player::kill` (main.rs lines 102-104). -/
def Player.kill (p : Player) : Player := { p with alive := false }

/-- `Player::reset` (main.rs lines 84-89). -/
def Player.reset (p : Player) (x y : Int) : Player :=
  { p with x := x, y := y, velocity := 0, alive := true }

structure Obstacle where
  x : Int
  gap_y : Int
  size : Int
deriving DecidableEq

/-- `Obstacle::hit_obstacle` (main.rs lines 342-348).  `self.size / 2` is
Rust `i32` division, truncating toward zero, hence `Int.tdiv`. -/
def Obstacle.hit_obstacle (o : Obstacle) (p : Player) : Bool :=
  let half_size := o.size.tdiv 2
  let does_x_match := p.x == o.x
  let player_above_gap := decide (p.y < o.gap_y - half_size)
  let player_below_gap := decide (p.y > o.gap_y + half_size)
  does_x_match && (player_above_gap || player_below_gap)

inductive GameMode where
  | Menu
  | Playing
  | End
deriving DecidableEq

structure State where
  player : Player
  frame_time : Rat
  mode : GameMode
  obstacles : List Obstacle
  score : Int
  high_score : Int
  genNextX : Int
deriving DecidableEq

/-- The obstacle-spawning loop shared by `State::new` (lines 141-149), by
`State::restart` (lines 291-299) and by the generator threads: starting
from `x0` it pushes `n` obstacles, each at the current `x` with
rng-supplied gap and size, stepping `x` by `SCREEN_WIDTH / 2`.  Returns the
obstacles pushed and the final cursor (the `thread_x` handed to the
producer thread). -/
def spawnLoop (rng : Nat → Int × Int) (x0 : Int) (n : Nat) : List Obstacle × Int :=
  (List.range n).foldl
    (fun acc i =>
      (acc.1 ++ [{ x := acc.2, gap_y := (rng i).1, size := (rng i).2 }],
       acc.2 + SCREEN_WIDTH / 2))
    ([], x0)

/-- `State::new` (main.rs lines 136-177). -/
def State.new (rng : Nat → Int × Int) : State :=
  let spawned := spawnLoop rng SCREEN_WIDTH 3
  { player := Player.new 5 25
    frame_time := 0
    mode := GameMode.Menu
    obstacles := spawned.1
    score := 0
    high_score := 0
    genNextX := spawned.2 }

/-- `State::restart` (main.rs lines 277-316): every field reinitialized,
the high-score store untouched, a fresh generator starting at the cursor
left by the initial batch. -/
def State.restart (s : State) (rng : Nat → Int × Int) : State :=
  let spawned := spawnLoop rng SCREEN_WIDTH 3
  { player := Player.new 5 25
    frame_time := 0
    mode := GameMode.Playing
    obstacles := spawned.1
    score := 0
    high_score := s.high_score
    genNextX := spawned.2 }

/-- Lines 198-206 of `State::play`: accumulate `frame_time_ms`; past
`FRAME_DURATION`, reset the accumulator and run one physics tick, entering
`End` when `try_move` reports `None`. -/
def physStep (s : State) (ms : Rat) : State :=
  if s.frame_time + ms > FRAME_DURATION then
    let moved := s.player.try_move
    { s with frame_time := 0, player := moved.1,
             mode := if moved.2.isNone then GameMode.End else s.mode }
  else { s with frame_time := s.frame_time + ms }

/-- Lines 209-216 of `State::play`: on Space, `flap`; a returned error is
only printed, the state is whatever `flap` left. -/
def flapStep (s : State) (space : Bool) : State :=
  if space then { s with player := s.player.flap.1 } else s

/-- Line 228 of `State::play`: `retain(|o| o.x - self.player.x > -20)`. -/
def cullStep (s : State) : State :=
  { s with obstacles := s.obstacles.filter (fun o => decide (o.x - s.player.x > -20)) }

/-- Lines 231-236 of `State::play`: if the front obstacle lies strictly
behind the player, increment the score and remove it. -/
def scoreStep (s : State) : State :=
  match s.obstacles with
  | [] => s
  | f :: rest =>
    if s.player.x > f.x then { s with score := s.score + 1, obstacles := rest }
    else s

/-- Lines 239-241 of `State::play`: drain every pending channel message
into the active collection, in arrival order. -/
def drainStep (s : State) (incoming : List Obstacle) : State :=
  { s with obstacles := s.obstacles ++ incoming }

/-- Line 244-245 of `State::play`: the `player_dead` test. -/
def deathCheck (s : State) : Bool :=
  decide (s.player.y > SCREEN_HEIGHT) || s.obstacles.any (fun o => o.hit_obstacle s.player)

/-- Lines 247-254 of `State::play`: on `player_dead`, enter `End` and
update the high-score store under the lock if the score exceeds it. -/
def deathStep (s : State) : State :=
  if deathCheck s then
    { s with mode := GameMode.End
             high_score := if s.score > s.high_score then s.score else s.high_score }
  else s

/-- One full call of `State::play` (main.rs lines 196-255), given the
elapsed milliseconds, whether Space is pressed this tick, and the
obstacles drained from the channel this tick. -/
def playTick (s : State) (ms : Rat) (space : Bool) (incoming : List Obstacle) : State :=
  deathStep (drainStep (scoreStep (cullStep (flapStep (physStep s ms) space))) incoming)

/-- The batch of messages the generator thread (main.rs lines 153-165,
303-315) has pending when the cursor is at `x0`: `k` obstacles at
`x0, x0 + 40, ...`, gaps and sizes from the oracle. -/
def genBatch (x0 : Int) (rng : Nat → Int × Int) (k : Nat) : List Obstacle :=
  (List.range k).map
    (fun (i : Nat) =>
      { x := x0 + SCREEN_WIDTH / 2 * (i : Int), gap_y := (rng i).1, size := (rng i).2 })

/-- A `Playing` tick together with the generator-thread progress: the
drained messages are the producer's next `k` sends and the cursor
advances past them. -/
def stepPlay (s : State) (ms : Rat) (space : Bool) (rng : Nat → Int × Int) (k : Nat) : State :=
  { playTick s ms space (genBatch s.genNextX rng k) with
      genNextX := s.genNextX + SCREEN_WIDTH / 2 * (k : Int) }

/-- The session-level transition relation: the `tick` dispatch
(main.rs lines 125-131) plus the generator thread.  In `Menu` and `End`,
key P calls `restart`; in `Playing`, one call of `play` runs. -/
inductive Step : State → State → Prop where
  | menu (s : State) (rng : Nat → Int × Int) :
      s.mode = GameMode.Menu → Step s (s.restart rng)
  | play (s : State) (ms : Rat) (space : Bool) (rng : Nat → Int × Int) (k : Nat) :
      s.mode = GameMode.Playing → Step s (stepPlay s ms space rng k)
  | ended (s : State) (rng : Nat → Int × Int) :
      s.mode = GameMode.End → Step s (s.restart rng)

/-- A session state reachable from some `State::new`. -/
def Reachable (s : State) : Prop :=
  ∃ rng, Relation.ReflTransGen Step (State.new rng) s

/-! ### Field-preservation helper lemmas -/

theorem physStep_score (s : State) (ms : Rat) : (physStep s ms).score = s.score := by
  unfold physStep; split <;> rfl

theorem physStep_obstacles (s : State) (ms : Rat) :
    (physStep s ms).obstacles = s.obstacles := by
  unfold physStep; split <;> rfl

theorem physStep_high_score (s : State) (ms : Rat) :
    (physStep s ms).high_score = s.high_score := by
  unfold physStep; split <;> rfl

theorem flap_fst_x (p : Player) : p.flap.1.x = p.x := by
  unfold Player.flap; split
  · rfl
  · split <;> rfl

theorem flap_fst_y (p : Player) : p.flap.1.y = p.y := by
  unfold Player.flap; split
  · rfl
  · split <;> rfl

theorem flap_fst_alive (p : Player) : p.flap.1.alive = p.alive := by
  unfold Player.flap; split
  · rfl
  · split <;> rfl

theorem flapStep_player_x (s : State) (b : Bool) :
    (flapStep s b).player.x = s.player.x := by
  unfold flapStep; split
  · exact flap_fst_x s.player
  · rfl

theorem flapStep_player_y (s : State) (b : Bool) :
    (flapStep s b).player.y = s.player.y := by
  unfold flapStep; split
  · exact flap_fst_y s.player
  · rfl

theorem flapStep_player_alive (s : State) (b : Bool) :
    (flapStep s b).player.alive = s.player.alive := by
  unfold flapStep; split
  · exact flap_fst_alive s.player
  · rfl

theorem flapStep_score (s : State) (b : Bool) : (flapStep s b).score = s.score := by
  unfold flapStep; split <;> rfl

theorem flapStep_obstacles (s : State) (b : Bool) :
    (flapStep s b).obstacles = s.obstacles := by
  unfold flapStep; split <;> rfl

theorem flapStep_high_score (s : State) (b : Bool) :
    (flapStep s b).high_score = s.high_score := by
  unfold flapStep; split <;> rfl

theorem flapStep_mode (s : State) (b : Bool) : (flapStep s b).mode = s.mode := by
  unfold flapStep; split <;> rfl

theorem cullStep_player (s : State) : (cullStep s).player = s.player := rfl

theorem cullStep_score (s : State) : (cullStep s).score = s.score := rfl

theorem cullStep_high_score (s : State) : (cullStep s).high_score = s.high_score := rfl

theorem cullStep_mode (s : State) : (cullStep s).mode = s.mode := rfl

theorem scoreStep_player (s : State) : (scoreStep s).player = s.player := by
  unfold scoreStep
  split
  · rfl
  · split <;> rfl

theorem scoreStep_high_score (s : State) : (scoreStep s).high_score = s.high_score := by
  unfold scoreStep
  split
  · rfl
  · split <;> rfl

theorem scoreStep_mode (s : State) : (scoreStep s).mode = s.mode := by
  unfold scoreStep
  split
  · rfl
  · split <;> rfl

theorem drainStep_player (s : State) (l : List Obstacle) :
    (drainStep s l).player = s.player := rfl

theorem drainStep_score (s : State) (l : List Obstacle) :
    (drainStep s l).score = s.score := rfl

theorem drainStep_high_score (s : State) (l : List Obstacle) :
    (drainStep s l).high_score = s.high_score := rfl

theorem drainStep_mode (s : State) (l : List Obstacle) :
    (drainStep s l).mode = s.mode := rfl

theorem deathStep_player (s : State) : (deathStep s).player = s.player := by
  unfold deathStep; split <;> rfl

theorem deathStep_obstacles (s : State) : (deathStep s).obstacles = s.obstacles := by
  unfold deathStep; split <;> rfl

theorem deathStep_score (s : State) : (deathStep s).score = s.score := by
  unfold deathStep; split <;> rfl

theorem scoreStep_score_cases (s : State) :
    (scoreStep s).score = s.score ∨ (scoreStep s).score = s.score + 1 := by
  unfold scoreStep
  split
  · exact Or.inl rfl
  · split
    · exact Or.inr rfl
    · exact Or.inl rfl

/-! ### Claim theorems -/

/-- C10: a single per-tick update while Playing changes the score to either
its old value or its old value plus one — never more, however many
obstacles lie behind the player, because only the front obstacle is
examined for scoring. -/
theorem playTick_score_at_most_one (s : State) (ms : Rat) (space : Bool)
    (incoming : List Obstacle) :
    (playTick s ms space incoming).score = s.score ∨
      (playTick s ms space incoming).score = s.score + 1 := by
  unfold playTick
  rw [deathStep_score, drainStep_score]
  rcases scoreStep_score_cases (cullStep (flapStep (physStep s ms) space)) with h | h <;>
    rw [h, cullStep_score, flapStep_score, physStep_score]
  · exact Or.inl rfl
  · exact Or.inr rfl

/-- C3 (amended): culling retains an active obstacle exactly when the
player's world x minus the obstacle's x is strictly less than 20; so an
obstacle is culled as soon as the difference reaches 20 (not only past
20), and obstacles ahead of the player are never culled. -/
theorem cull_retained_iff (s : State) :
    ∀ o : Obstacle, o ∈ (cullStep s).obstacles ↔
      o ∈ s.obstacles ∧ s.player.x - o.x < 20 := by
  intro o
  simp only [cullStep, List.mem_filter, decide_eq_true_eq]
  constructor
  · rintro ⟨hm, hd⟩
    exact ⟨hm, by omega⟩
  · rintro ⟨hm, hd⟩
    exact ⟨hm, by omega⟩

def cullBoundaryState : State :=
  { player := { x := 100, y := 25, velocity := 0, alive := true },
    frame_time := 0, mode := GameMode.Playing,
    obstacles := [{ x := 80, gap_y := 25, size := 10 }],
    score := 0, high_score := 0, genNextX := 200 }

/-- C3 counterexample: with the player at world x 100 and an obstacle at
x 80 the difference is exactly 20, which is not strictly more than 20, yet
the per-tick culling removes the obstacle. -/
theorem cull_at_difference_twenty :
    cullBoundaryState.player.x - 80 = 20 ∧ ¬ ((20 : Int) > 20) ∧
      (cullStep cullBoundaryState).obstacles = [] := by
  refine ⟨rfl, by omega, rfl⟩

/-- C5: flap fails with AlreadyDead on a dead player and with
FallingTooFast on a live player whose velocity exceeds 5; otherwise it
succeeds, setting the velocity to exactly -2 whatever it was; in both
failure cases the player (position, velocity, aliveness) is returned
unchanged. -/
theorem flap_spec (p : Player) :
    (p.alive = false → p.flap = (p, some PlayerError.AlreadyDead)) ∧
    (p.alive = true → p.velocity > 5 → p.flap = (p, some PlayerError.FallingTooFast)) ∧
    (p.alive = true → p.velocity ≤ 5 → p.flap = ({ p with velocity := -2 }, none)) := by
  refine ⟨fun h => ?_, fun h hv => ?_, fun h hv => ?_⟩
  · simp [Player.flap, h]
  · simp [Player.flap, h, hv]
  · simp [Player.flap, h, not_lt.mpr hv]

/-- C6: the collision predicate is true iff the player's x equals the
obstacle's x and the player's y lies strictly above or strictly below the
gap band (half size by truncating integer division); in particular for
gap 25, size 10, obstacle x 5: a player at (5,10) collides, at (5,25)
does not, at (6,10) does not. -/
theorem hit_obstacle_spec :
    (∀ (o : Obstacle) (p : Player),
        o.hit_obstacle p = true ↔
          p.x = o.x ∧
            (p.y < o.gap_y - o.size.tdiv 2 ∨ p.y > o.gap_y + o.size.tdiv 2)) ∧
    Obstacle.hit_obstacle { x := 5, gap_y := 25, size := 10 } (Player.new 5 10) = true ∧
    Obstacle.hit_obstacle { x := 5, gap_y := 25, size := 10 } (Player.new 5 25) = false ∧
    Obstacle.hit_obstacle { x := 5, gap_y := 25, size := 10 } (Player.new 6 10) = false := by
  refine ⟨fun o p => ?_, rfl, rfl, rfl⟩
  simp [Obstacle.hit_obstacle]

/-- C8: restart reinitializes every session field — player to (5,25) with
zero velocity and alive, accumulator to 0, score to 0, obstacles to 3
fresh ones at world x 80, 120, 160, generator cursor continuing at 200 —
while the high-score store keeps its value. -/
theorem restart_spec (s : State) (rng : Nat → Int × Int) :
    s.restart rng =
      { player := Player.new 5 25
        frame_time := 0
        mode := GameMode.Playing
        obstacles := [{ x := 80, gap_y := (rng 0).1, size := (rng 0).2 },
                      { x := 120, gap_y := (rng 1).1, size := (rng 1).2 },
                      { x := 160, gap_y := (rng 2).1, size := (rng 2).2 }]
        score := 0
        high_score := s.high_score
        genNextX := 200 } := rfl

theorem try_move_dead (p : Player) (h : p.alive = false) : p.try_move = (p, none) := by
  unfold Player.try_move
  simp [h]

theorem try_move_eq_of_alive (p : Player) (h : p.alive = true) :
    p.try_move =
      (if p.y + ratTrunc (if p.velocity < 2 then p.velocity + 0.2 else p.velocity) < 0
       then ({ x := p.x + 1, y := 0,
               velocity := if p.velocity < 2 then p.velocity + 0.2 else p.velocity,
               alive := false }, none)
       else ({ x := p.x + 1,
               y := p.y + ratTrunc (if p.velocity < 2 then p.velocity + 0.2 else p.velocity),
               velocity := if p.velocity < 2 then p.velocity + 0.2 else p.velocity,
               alive := true }, some ())) := by
  unfold Player.try_move
  simp [h]

/-- C4: for an alive player, advance adds exactly 0.2 to the velocity when
it is below 2 and leaves it unchanged otherwise (never decreasing it),
advances x by exactly 1 and y by the toward-zero truncation of the updated
velocity; when the resulting y would be negative it clamps y to 0, clears
the aliveness flag and reports blocked, after which a further advance is a
no-op; otherwise it reports success. -/
theorem try_move_spec (p : Player) (h : p.alive = true) :
    (p.velocity < 2 → p.try_move.1.velocity = p.velocity + 0.2) ∧
    (2 ≤ p.velocity → p.try_move.1.velocity = p.velocity) ∧
    p.velocity ≤ p.try_move.1.velocity ∧
    p.try_move.1.x = p.x + 1 ∧
    (p.y + ratTrunc p.try_move.1.velocity < 0 →
      p.try_move.1.y = 0 ∧ p.try_move.1.alive = false ∧ p.try_move.2 = none ∧
        p.try_move.1.try_move = (p.try_move.1, none)) ∧
    (0 ≤ p.y + ratTrunc p.try_move.1.velocity →
      p.try_move.1.y = p.y + ratTrunc p.try_move.1.velocity ∧
        p.try_move.1.alive = true ∧ p.try_move.2 = some ()) := by
  have hd := try_move_eq_of_alive p h
  have hvle : p.velocity ≤ if p.velocity < 2 then p.velocity + 0.2 else p.velocity := by
    by_cases hv : p.velocity < 2
    · rw [if_pos hv]
      linarith
    · rw [if_neg hv]
  by_cases hy :
      p.y + ratTrunc (if p.velocity < 2 then p.velocity + 0.2 else p.velocity) < 0
  · rw [hd, if_pos hy]
    refine ⟨fun hv => by rw [if_pos hv], fun hv => by rw [if_neg (not_lt.mpr hv)],
      hvle, rfl, fun _ => ⟨rfl, rfl, rfl, try_move_dead _ rfl⟩,
      fun hy2 => absurd hy (not_lt.mpr hy2)⟩
  · rw [hd, if_neg hy]
    exact ⟨fun hv => by rw [if_pos hv], fun hv => by rw [if_neg (not_lt.mpr hv)],
      hvle, rfl, fun hy2 => absurd hy2 (not_lt.mpr (le_of_not_lt hy)), fun _ => ⟨rfl, rfl, rfl⟩⟩

def witnessPlayer : Player := { x := 5, y := 25, velocity := 0, alive := true }

theorem try_move_spec_witness :
    (witnessPlayer.velocity < 2 →
      witnessPlayer.try_move.1.velocity = witnessPlayer.velocity + 0.2) ∧
    (2 ≤ witnessPlayer.velocity →
      witnessPlayer.try_move.1.velocity = witnessPlayer.velocity) ∧
    witnessPlayer.velocity ≤ witnessPlayer.try_move.1.velocity ∧
    witnessPlayer.try_move.1.x = witnessPlayer.x + 1 ∧
    (witnessPlayer.y + ratTrunc witnessPlayer.try_move.1.velocity < 0 →
      witnessPlayer.try_move.1.y = 0 ∧ witnessPlayer.try_move.1.alive = false ∧
        witnessPlayer.try_move.2 = none ∧
        witnessPlayer.try_move.1.try_move = (witnessPlayer.try_move.1, none)) ∧
    (0 ≤ witnessPlayer.y + ratTrunc witnessPlayer.try_move.1.velocity →
      witnessPlayer.try_move.1.y =
          witnessPlayer.y + ratTrunc witnessPlayer.try_move.1.velocity ∧
        witnessPlayer.try_move.1.alive = true ∧ witnessPlayer.try_move.2 = some ()) :=
  try_move_spec witnessPlayer rfl

def blockedDeathState : State :=
  { player := { x := 5, y := 0, velocity := -2, alive := true },
    frame_time := 0, mode := GameMode.Playing, obstacles := [],
    score := 3, high_score := 0, genNextX := 200 }

/-- C1 counterexample: a tick whose physics advance reports movement
blocked at the top boundary (player at y 0 with upward velocity -2)
transitions the session from Playing to Ended with just-ended score 3
strictly greater than the stored best 0, yet the store still holds 0
after the transition. -/
theorem blocked_death_misses_highscore :
    blockedDeathState.mode = GameMode.Playing ∧
    blockedDeathState.high_score = 0 ∧
    (playTick blockedDeathState 76 false []).mode = GameMode.End ∧
    (playTick blockedDeathState 76 false []).score = 3 ∧
    (playTick blockedDeathState 76 false []).high_score = 0 := by
  refine ⟨rfl, rfl, ?_, ?_, ?_⟩ <;>
    norm_num [playTick, deathStep, drainStep, scoreStep, cullStep, flapStep, physStep,
      deathCheck, Obstacle.hit_obstacle, blockedDeathState, FRAME_DURATION, SCREEN_HEIGHT,
      Player.try_move, ratTrunc]

/-- C1 (amended): the high-score store is updated exactly on ticks whose
final death check (vertical position past the screen height, or an
obstacle collision) reports death: there the session enters Ended and the
store becomes the just-ended score when that score exceeds it; on a tick
whose death check is false — in particular a transition to Ended caused
solely by the physics advance reporting movement blocked — the store is
left unchanged. -/
theorem highscore_update_spec (s : State) (ms : Rat) (space : Bool)
    (incoming : List Obstacle) :
    (deathCheck (playTick s ms space incoming) = true →
      (playTick s ms space incoming).mode = GameMode.End ∧
      (playTick s ms space incoming).high_score =
        (if (playTick s ms space incoming).score > s.high_score
         then (playTick s ms space incoming).score else s.high_score)) ∧
    (deathCheck (playTick s ms space incoming) = false →
      (playTick s ms space incoming).high_score = s.high_score) := by
  have hpre :
      (drainStep (scoreStep (cullStep (flapStep (physStep s ms) space))) incoming).high_score
        = s.high_score := by
    rw [drainStep_high_score, scoreStep_high_score, cullStep_high_score,
      flapStep_high_score, physStep_high_score]
  set t := drainStep (scoreStep (cullStep (flapStep (physStep s ms) space))) incoming with ht
  have hplay : playTick s ms space incoming = deathStep t := rfl
  have hdc : deathCheck (deathStep t) = deathCheck t := by
    unfold deathCheck
    rw [deathStep_player, deathStep_obstacles]
  rw [hplay, hdc]
  by_cases h : deathCheck t = true
  · refine ⟨fun _ => ?_, fun hf => absurd h (by simp [hf])⟩
    unfold deathStep
    rw [if_pos h]
    refine ⟨rfl, ?_⟩
    simp [hpre]
  · have h0 : deathCheck t = false := by
      cases hb : deathCheck t
      · rfl
      · exact absurd hb h
    refine ⟨fun hc => absurd hc h, fun _ => ?_⟩
    unfold deathStep
    rw [if_neg (by simp [h0])]
    exact hpre

def collisionDeathState : State :=
  { player := { x := 5, y := 10, velocity := 0, alive := true },
    frame_time := 0, mode := GameMode.Playing,
    obstacles := [{ x := 5, gap_y := 25, size := 10 }],
    score := 0, high_score := 0, genNextX := 200 }

/-- C2 counterexample: a tick in which an obstacle's collision predicate
is true (player at (5,10), obstacle at x 5 with gap 25 and size 10)
transitions the session from Playing to Ended, yet the player's aliveness
flag is still true afterwards — the tick logic never invokes the kill
operation. -/
theorem collision_death_leaves_alive :
    collisionDeathState.mode = GameMode.Playing ∧
    (playTick collisionDeathState 0 false []).mode = GameMode.End ∧
    (playTick collisionDeathState 0 false []).player.alive = true := by
  refine ⟨rfl, ?_, ?_⟩ <;>
    norm_num [playTick, deathStep, drainStep, scoreStep, cullStep, flapStep, physStep,
      deathCheck, Obstacle.hit_obstacle, collisionDeathState, FRAME_DURATION, SCREEN_HEIGHT,
      Player.try_move, ratTrunc, show Int.tdiv 10 2 = 5 from rfl]

/-- C2 (amended): the aliveness flag is cleared only by the physics
advance hitting the top boundary: after a full play tick the flag equals
what the physics step left, and for an alive player that step clears the
flag exactly when the accumulator passes the frame duration and the
advance reports movement blocked; deaths found by the final check
(obstacle collision or falling past the screen) flip the mode to Ended
without touching the flag. -/
theorem alive_flag_spec (s : State) (ms : Rat) (space : Bool)
    (incoming : List Obstacle) :
    (playTick s ms space incoming).player.alive = (physStep s ms).player.alive ∧
    (s.player.alive = true →
      ((physStep s ms).player.alive = false ↔
        s.frame_time + ms > FRAME_DURATION ∧ s.player.try_move.2 = none)) := by
  constructor
  · unfold playTick
    rw [deathStep_player, drainStep_player, scoreStep_player, cullStep_player,
      flapStep_player_alive]
  · intro h
    unfold physStep
    by_cases hft : s.frame_time + ms > FRAME_DURATION
    · rw [if_pos hft]
      have hd := try_move_eq_of_alive s.player h
      by_cases hy :
          s.player.y +
              ratTrunc (if s.player.velocity < 2 then s.player.velocity + 0.2
                        else s.player.velocity) < 0
      · rw [hd, if_pos hy]
        simp [hft]
      · rw [hd, if_neg hy]
        simp [hft]
    · rw [if_neg hft]
      simp [hft, h]

theorem cullStep_obstacles (s : State) :
    (cullStep s).obstacles =
      s.obstacles.filter (fun o => decide (o.x - s.player.x > -20)) := rfl

theorem drainStep_obstacles (s : State) (l : List Obstacle) :
    (drainStep s l).obstacles = s.obstacles ++ l := rfl

theorem scoreStep_obstacles_sublist (s : State) :
    (scoreStep s).obstacles.Sublist s.obstacles := by
  rcases hobs : s.obstacles with _ | ⟨f, rest⟩
  · have h : scoreStep s = s := by
      unfold scoreStep
      rw [hobs]
    rw [h, hobs]
  · by_cases hx : s.player.x > f.x
    · have h : scoreStep s = { s with score := s.score + 1, obstacles := rest } := by
        unfold scoreStep
        rw [hobs]
        exact if_pos hx
      rw [h]
      exact List.Sublist.cons _ (List.Sublist.refl _)
    · have h : scoreStep s = s := by
        unfold scoreStep
        rw [hobs]
        exact if_neg hx
      rw [h, hobs]

theorem scoreStep_total (s : State) :
    (scoreStep s = s ∧ ∀ f rest, s.obstacles = f :: rest → s.player.x ≤ f.x) ∨
    (∃ f rest, s.obstacles = f :: rest ∧ s.player.x > f.x ∧
       scoreStep s = { s with score := s.score + 1, obstacles := rest }) := by
  rcases hobs : s.obstacles with _ | ⟨f, rest⟩
  · left
    constructor
    · unfold scoreStep
      rw [hobs]
    · intro f r h
      cases h
  · by_cases hx : s.player.x > f.x
    · right
      refine ⟨f, rest, rfl, hx, ?_⟩
      unfold scoreStep
      rw [hobs]
      exact if_pos hx
    · left
      constructor
      · unfold scoreStep
        rw [hobs]
        exact if_neg hx
      · intro f2 r2 h
        cases h
        exact le_of_not_lt hx

/-- C7: per-tick scoring increments the score by exactly 1 and removes the
front obstacle of the ordered collection exactly when the player's world x
strictly exceeds that obstacle's x (otherwise the step is the identity);
and — under the generator's spacing of the active collection (consecutive
obstacles at least 20 apart in x, the repository spawns them 40 apart) —
re-running the cull-then-score bookkeeping with the player unmoved changes
nothing, so no obstacle is ever scored twice. -/
theorem score_front_spec (s : State) :
    (s.obstacles = [] → scoreStep s = s) ∧
    (∀ f rest, s.obstacles = f :: rest →
       (s.player.x > f.x →
          scoreStep s = { s with score := s.score + 1, obstacles := rest }) ∧
       (s.player.x ≤ f.x → scoreStep s = s)) ∧
    (List.Pairwise (fun a b => a.x + 20 ≤ b.x) s.obstacles →
       scoreStep (cullStep (scoreStep (cullStep s))) = scoreStep (cullStep s)) := by
  refine ⟨fun hobs => ?_, fun f rest hobs => ⟨fun hx => ?_, fun hx => ?_⟩, fun hsp => ?_⟩
  · unfold scoreStep
    rw [hobs]
  · unfold scoreStep
    rw [hobs]
    exact if_pos hx
  · unfold scoreStep
    rw [hobs]
    exact if_neg (not_lt.mpr hx)
  · -- the whole culled-then-scored state is a fixed point of cull and of score
    have hall : ∀ o ∈ (scoreStep (cullStep s)).obstacles,
        decide (o.x - (scoreStep (cullStep s)).player.x > -20) = true := by
      intro o ho
      have hsub : o ∈ (cullStep s).obstacles :=
        (scoreStep_obstacles_sublist (cullStep s)).subset ho
      rw [cullStep_obstacles] at hsub
      have h2 := (List.mem_filter.mp hsub).2
      rw [scoreStep_player, cullStep_player]
      exact h2
    have hfe : cullStep (scoreStep (cullStep s)) = scoreStep (cullStep s) := by
      generalize hg : scoreStep (cullStep s) = u at hall
      unfold cullStep
      rw [List.filter_eq_self.mpr hall]
    rw [hfe]
    have hpair1 : List.Pairwise (fun a b => a.x + 20 ≤ b.x) (cullStep s).obstacles := by
      rw [cullStep_obstacles]
      exact List.Pairwise.sublist (List.filter_sublist _) hsp
    rcases scoreStep_total (cullStep s) with ⟨hu, _⟩ | ⟨f, rest, hobs1, hx, hu⟩
    · rw [hu]
      exact hu
    · -- the front was scored and removed; the next front is ahead of the player
      have hpl : (scoreStep (cullStep s)).player = s.player := by
        rw [scoreStep_player, cullStep_player]
      have hf_behind : f.x - s.player.x > -20 := by
        have hf : f ∈ (cullStep s).obstacles := by
          rw [hobs1]
          exact List.mem_cons_self _ _
        rw [cullStep_obstacles] at hf
        have := (List.mem_filter.mp hf).2
        simpa using this
      rcases hrest : rest with _ | ⟨f2, r2⟩
      · have hobs2 : (scoreStep (cullStep s)).obstacles = [] := by
          rw [hu]
          exact hrest
        generalize hg : scoreStep (cullStep s) = u at hobs2
        unfold scoreStep
        rw [hobs2]
      · have hrel : f.x + 20 ≤ f2.x := by
          rw [hobs1, hrest] at hpair1
          exact (List.pairwise_cons.mp hpair1).1 f2 (List.mem_cons_self _ _)
        have hle : ¬ s.player.x > f2.x := by omega
        have hobs2 : (scoreStep (cullStep s)).obstacles = f2 :: r2 := by
          rw [hu]
          exact hrest
        generalize hg : scoreStep (cullStep s) = u at hobs2 hpl
        unfold scoreStep
        rw [hobs2, hpl]
        exact if_neg hle

/-! ### The obstacle-ordering invariant (C9) -/

/-- The reachable-state invariant: active obstacles are spaced at least 40
apart in insertion order (the generator's spacing), and all of them lie at
least 40 before the generator cursor. -/
def Inv (s : State) : Prop :=
  List.Pairwise (fun a b => a.x + 40 ≤ b.x) s.obstacles ∧
    ∀ o ∈ s.obstacles, o.x + 40 ≤ s.genNextX

theorem inv_new (rng : Nat → Int × Int) : Inv (State.new rng) := by
  constructor
  · rw [show (State.new rng).obstacles =
        [{ x := 80, gap_y := (rng 0).1, size := (rng 0).2 },
         { x := 120, gap_y := (rng 1).1, size := (rng 1).2 },
         { x := 160, gap_y := (rng 2).1, size := (rng 2).2 }] from rfl]
    norm_num [List.pairwise_cons]
  · intro o ho
    rw [show (State.new rng).obstacles =
        [{ x := 80, gap_y := (rng 0).1, size := (rng 0).2 },
         { x := 120, gap_y := (rng 1).1, size := (rng 1).2 },
         { x := 160, gap_y := (rng 2).1, size := (rng 2).2 }] from rfl] at ho
    rw [show (State.new rng).genNextX = 200 from rfl]
    simp only [List.mem_cons, List.not_mem_nil, or_false] at ho
    rcases ho with rfl | rfl | rfl <;> norm_num

theorem inv_restart (s : State) (rng : Nat → Int × Int) : Inv (s.restart rng) := by
  constructor
  · rw [show (s.restart rng).obstacles =
        [{ x := 80, gap_y := (rng 0).1, size := (rng 0).2 },
         { x := 120, gap_y := (rng 1).1, size := (rng 1).2 },
         { x := 160, gap_y := (rng 2).1, size := (rng 2).2 }] from rfl]
    norm_num [List.pairwise_cons]
  · intro o ho
    rw [show (s.restart rng).obstacles =
        [{ x := 80, gap_y := (rng 0).1, size := (rng 0).2 },
         { x := 120, gap_y := (rng 1).1, size := (rng 1).2 },
         { x := 160, gap_y := (rng 2).1, size := (rng 2).2 }] from rfl] at ho
    rw [show (s.restart rng).genNextX = 200 from rfl]
    simp only [List.mem_cons, List.not_mem_nil, or_false] at ho
    rcases ho with rfl | rfl | rfl <;> norm_num

theorem genBatch_pairwise (x0 : Int) (rng : Nat → Int × Int) (k : Nat) :
    List.Pairwise (fun a b => a.x + 40 ≤ b.x) (genBatch x0 rng k) := by
  unfold genBatch
  rw [List.pairwise_map]
  refine (List.pairwise_lt_range k).imp ?_
  intro i j hij
  have hc : (i : Int) + 1 ≤ (j : Int) := by exact_mod_cast hij
  show x0 + SCREEN_WIDTH / 2 * (i : Int) + 40 ≤ x0 + SCREEN_WIDTH / 2 * (j : Int)
  rw [show SCREEN_WIDTH / 2 = (40 : Int) from rfl]
  linarith

theorem genBatch_mem (x0 : Int) (rng : Nat → Int × Int) (k : Nat) (o : Obstacle)
    (h : o ∈ genBatch x0 rng k) : ∃ i : Nat, i < k ∧ o.x = x0 + 40 * (i : Int) := by
  unfold genBatch at h
  rcases List.mem_map.mp h with ⟨i, hi, rfl⟩
  refine ⟨i, List.mem_range.mp hi, ?_⟩
  show x0 + SCREEN_WIDTH / 2 * (i : Int) = x0 + 40 * (i : Int)
  rw [show SCREEN_WIDTH / 2 = (40 : Int) from rfl]

theorem inv_stepPlay (s : State) (ms : Rat) (space : Bool) (rng : Nat → Int × Int)
    (k : Nat) (h : Inv s) : Inv (stepPlay s ms space rng k) := by
  obtain ⟨hord, hbound⟩ := h
  have hobs : (stepPlay s ms space rng k).obstacles =
      (scoreStep (cullStep (flapStep (physStep s ms) space))).obstacles
        ++ genBatch s.genNextX rng k := by
    show (deathStep (drainStep (scoreStep (cullStep (flapStep (physStep s ms) space)))
        (genBatch s.genNextX rng k))).obstacles = _
    rw [deathStep_obstacles, drainStep_obstacles]
  have hsub : (scoreStep (cullStep (flapStep (physStep s ms) space))).obstacles.Sublist
      s.obstacles := by
    have h1 := scoreStep_obstacles_sublist (cullStep (flapStep (physStep s ms) space))
    have h2 : (cullStep (flapStep (physStep s ms) space)).obstacles.Sublist
        (flapStep (physStep s ms) space).obstacles := by
      rw [cullStep_obstacles]
      exact List.filter_sublist _
    have h3 := h1.trans h2
    rwa [flapStep_obstacles, physStep_obstacles] at h3
  have hg : (stepPlay s ms space rng k).genNextX = s.genNextX + 40 * (k : Int) := by
    show s.genNextX + SCREEN_WIDTH / 2 * (k : Int) = _
    rw [show SCREEN_WIDTH / 2 = (40 : Int) from rfl]
  constructor
  · rw [hobs, List.pairwise_append]
    refine ⟨List.Pairwise.sublist hsub hord, genBatch_pairwise _ _ _, ?_⟩
    intro a ha b hb
    have hax : a.x + 40 ≤ s.genNextX := hbound a (hsub.subset ha)
    rcases genBatch_mem _ _ _ b hb with ⟨i, _, hbx⟩
    omega
  · intro o ho
    rw [hobs] at ho
    rw [hg]
    rcases List.mem_append.mp ho with h1 | h1
    · have hb := hbound o (hsub.subset h1)
      omega
    · rcases genBatch_mem _ _ _ o h1 with ⟨i, hik, hox⟩
      omega

theorem inv_step {s t : State} (hst : Step s t) (h : Inv s) : Inv t := by
  cases hst with
  | menu rng hm => exact inv_restart _ _
  | play ms space rng k hm => exact inv_stepPlay _ _ _ _ _ h
  | ended rng hm => exact inv_restart _ _

/-- C9: in every reachable session state the active obstacles are strictly
increasing in world x in insertion order; the proof shows each per-tick
operation (culling, scoring removal, draining generator messages) and
restart preserves the (stronger) spacing invariant. -/
theorem reachable_obstacles_strictly_increasing (s : State) (h : Reachable s) :
    List.Pairwise (fun a b => a.x < b.x) s.obstacles := by
  have hinv : Inv s := by
    obtain ⟨rng, hr⟩ := h
    induction hr with
    | refl => exact inv_new rng
    | tail hab hbc ih => exact inv_step hbc ih
  exact hinv.1.imp (fun hab => by omega)

def rngConst : Nat → Int × Int := fun _ => (25, 10)

theorem reachable_obstacles_witness :
    List.Pairwise (fun a b => a.x < b.x) (State.new rngConst).obstacles :=
  reachable_obstacles_strictly_increasing (State.new rngConst)
    ⟨rngConst, Relation.ReflTransGen.refl⟩

end Flappy
